import Mathlib

/-!
Verification of the Personal Library Manager
(`src/personal_library_manager.py`) against its specification.

The program keeps an in-memory list of `Book` dataclass records and offers
add / remove / search / list / status-update operations; every successful
mutation serializes the whole list to a JSON file.  We embed the record
type, the list-manipulating operations and a JSON-value-level model of the
persistence layer, and prove the specification's claims about them.

Conventions of the embedding:
* Python strings are Lean `String`s; the Python `int` `year_published` is a
  Lean `Int` (Python integers are unbounded).
* Each mutating method of `LibraryManager` becomes a pure function from the
  current `self.books` list to an `OpResult` recording the new list, whether
  `save_library` was called, and whether an error message was printed.
* `datetime.now().strftime("%Y-%m-%d")` is modelled by an explicit `today`
  argument threaded into `add_book`.
* The persistence layer is modelled at the level of JSON values (the
  abstract syntax produced by `json.load` / consumed by `json.dump`), not
  JSON text; Python's `json` library is treated as a faithful
  printer/parser pair.
-/

/-- The `Book` dataclass: seven fields, in source order.  `status` is free
text ("read", "reading", "to_read" by convention, never validated). -/
structure Book where
  title : String
  author : String
  isbn : String
  genre : String
  year_published : Int
  date_added : String
  status : String
deriving Repr, DecidableEq

/-- Result of one mutating `LibraryManager` operation: the new value of
`self.books`, whether `save_library` was invoked, and whether an error
message was printed (`error = true` exactly when the operation printed an
`Error: ...` line and mutated nothing). -/
structure OpResult where
  books : List Book
  saved : Bool
  error : Bool
deriving Repr, DecidableEq

/-- `LibraryManager.add_book`: rejects a duplicate ISBN (printing an error,
mutating nothing, saving nothing); otherwise appends a fresh record whose
`date_added` is the current date (the `today` argument) and saves. -/
def add_book (books : List Book) (title author isbn genre : String)
    (year_published : Int) (status : String) (today : String) : OpResult :=
  if books.any (fun book => book.isbn == isbn) then
    ⟨books, false, true⟩
  else
    ⟨books ++ [⟨title, author, isbn, genre, year_published, today, status⟩],
      true, false⟩

/-- `LibraryManager.remove_book`: scans `self.books` in order, pops the
first record whose `isbn` matches and saves; if none matches, prints a
not-found error and mutates nothing. -/
def remove_book (books : List Book) (isbn : String) : OpResult :=
  match books with
  | [] => ⟨[], false, true⟩
  | book :: rest =>
    if book.isbn == isbn then
      ⟨rest, true, false⟩
    else
      let r := remove_book rest isbn
      ⟨book :: r.books, r.saved, r.error⟩

/-- `LibraryManager.update_book_status`: scans `self.books` in order,
overwrites the `status` field of the first record whose `isbn` matches (no
validation of the new status text) and saves; if none matches, prints a
not-found error and mutates nothing. -/
def update_book_status (books : List Book) (isbn new_status : String) :
    OpResult :=
  match books with
  | [] => ⟨[], false, true⟩
  | book :: rest =>
    if book.isbn == isbn then
      ⟨{ book with status := new_status } :: rest, true, false⟩
    else
      let r := update_book_status rest isbn new_status
      ⟨book :: r.books, r.saved, r.error⟩

/-- Python's contiguous-substring test `need in hay`, on character lists:
`true` iff `need` occurs contiguously inside `hay` (the empty list occurs
in everything). -/
def charListIn (need : List Char) : List Char → Bool
  | [] => need.isEmpty
  | c :: rest => need.isPrefixOf (c :: rest) || charListIn need rest

/-- Python's `sub in s` on strings. -/
def strIn (sub s : String) : Bool :=
  charListIn sub.data s.data

/-- Python's `str.lower()` (character-wise lowering; the catalog's fields
and queries are ASCII text, where `Char.toLower` agrees with Python). -/
def strLower (s : String) : String :=
  ⟨s.data.map Char.toLower⟩

/-- The per-record match test of `LibraryManager.search_books`, after the
query has been lowered once: the lowered query is a substring of the
lowered `title`, `author`, `isbn` or `genre` field. -/
def matchesLowered (q : String) (book : Book) : Bool :=
  strIn q (strLower book.title) || strIn q (strLower book.author) ||
    strIn q (strLower book.isbn) || strIn q (strLower book.genre)

/-- `LibraryManager.search_books`: lowers the query once, then filters
`self.books` by `matchesLowered`.  A pure read: the method never assigns to
`self.books` and never calls `save_library`. -/
def search_books (books : List Book) (query : String) : List Book :=
  books.filter (matchesLowered (strLower query))

/-- The state-level view of `search_books`: the method leaves `self.books`
untouched, calls no save and prints no error (first component), returning
the list of matches (second component).  This records, in the same shape as
the mutating operations, that searching has no side effect on the store. -/
def search_op (books : List Book) (query : String) : OpResult × List Book :=
  (⟨books, false, false⟩, search_books books query)

/-- The spec's description of a search match, written from its words:
"the lower-cased query is a substring of the lower-cased title, author,
isbn, or genre field".  Compare with `matchesLowered`, which is embedded
from the code (the code lowers the query once before the scan). -/
def spec_matches (query : String) (book : Book) : Bool :=
  strIn (strLower query) (strLower book.title) ||
    strIn (strLower query) (strLower book.author) ||
    strIn (strLower query) (strLower book.isbn) ||
    strIn (strLower query) (strLower book.genre)

/-- The catalog invariant stated in the spec: no two records share an
`isbn`. -/
def nodupIsbn (books : List Book) : Prop :=
  (books.map Book.isbn).Nodup

/-- A sample record used by the concrete witnesses (it is the sample book
hardcoded at the bottom of the source file). -/
def gatsby : Book :=
  ⟨"The Great Gatsby", "F. Scott Fitzgerald", "9780743273565", "Fiction",
    1925, "2026-10-12", "to_read"⟩

/-- A second sample record. -/
def orwell : Book :=
  ⟨"1984", "George Orwell", "111", "Fiction", 1949, "2026-10-12", "to_read"⟩

example : search_books [gatsby, orwell] "gatsby" = [gatsby] := by decide
example : search_books [gatsby, orwell] "" = [gatsby, orwell] := by decide
example : remove_book [gatsby, orwell] "111" = ⟨[gatsby], true, false⟩ := by
  decide

/-!
Persistence layer.  `save_library` runs
`json.dump([book.__dict__ for book in self.books], f, indent=4)` and
`load_library` runs `data = json.load(f)` followed by
`self.books = [Book(**book) for book in data]`, catching only
`json.JSONDecodeError`.  We model the backing file's content as either
missing, present-but-not-valid-JSON, or a JSON value, and the two methods
as functions between `List Book` and JSON values.
-/

/-- JSON values, as produced by `json.load` / consumed by `json.dump`.
Object fields keep their (unique) keys in order; numbers are modelled as
integers, the only kind the program ever stores. -/
inductive Json where
  | null
  | bool (b : Bool)
  | num (n : Int)
  | str (s : String)
  | arr (elems : List Json)
  | obj (fields : List (String × Json))

/-- The content of the backing file as `load_library` sees it: absent,
present but not syntactically valid JSON (`json.load` raises
`json.JSONDecodeError`), or a parsed JSON value. -/
inductive FileContent where
  | missing
  | invalidSyntax
  | json (j : Json)

/-- Outcome of `load_library`: either a catalog (with `warned = true` when
the "Invalid JSON file" message was printed), or an uncaught exception that
aborts the process (only `json.JSONDecodeError` is caught; a `TypeError`
from `Book(**book)` or from iterating a non-iterable propagates). -/
inductive LoadResult where
  | ok (books : List Book) (warned : Bool)
  | crash
deriving Repr, DecidableEq

/-- Key lookup in a JSON object (Python `dict` access; keys coming from
`json.load` are unique, later duplicates in a document overwrite earlier
ones before the program sees them). -/
def getField (fields : List (String × Json)) (k : String) : Option Json :=
  match fields with
  | [] => none
  | (k', v) :: rest => if k' == k then some v else getField rest k

/-- The keyword names accepted by `Book(**d)`: exactly the seven dataclass
fields. -/
def bookKeys : List String :=
  ["title", "author", "isbn", "genre", "year_published", "date_added",
    "status"]

/-- `Book(**book)` applied to one element of the loaded array: succeeds only
on a JSON object whose key set is exactly `bookKeys` (a missing or extra
keyword raises `TypeError`, and `**` of a non-mapping raises `TypeError`);
`none` models the uncaught exception.  Python's dataclass performs no
runtime type validation of the field values; this embedding additionally
requires each value to have the field's declared type, and no theorem below
depends on the behaviour at an object with exactly the right keys but
ill-typed values. -/
def bookFromJson : Json → Option Book
  | .obj fields =>
    if fields.all (fun kv => bookKeys.contains kv.1) then
      match getField fields "title", getField fields "author",
          getField fields "isbn", getField fields "genre",
          getField fields "year_published", getField fields "date_added",
          getField fields "status" with
      | some (.str t), some (.str a), some (.str i), some (.str g),
          some (.num y), some (.str d), some (.str s) =>
        some ⟨t, a, i, g, y, d, s⟩
      | _, _, _, _, _, _, _ => none
    else none
  | _ => none

/-- The list comprehension `[Book(**book) for book in data]`: `none` as soon
as one element raises. -/
def booksFromJson : List Json → Option (List Book)
  | [] => some []
  | x :: xs =>
    match bookFromJson x, booksFromJson xs with
    | some b, some bs => some (b :: bs)
    | _, _ => none

/-- Python iteration `for book in data` over a JSON-loaded value: a list
yields its elements, a dict its keys (as strings, in insertion order), a
string its one-character substrings; `None`, booleans and numbers are not
iterable (`TypeError`). -/
def jsonIter : Json → Option (List Json)
  | .arr elems => some elems
  | .obj fields => some (fields.map (fun kv => Json.str kv.1))
  | .str s => some (s.data.map (fun c => Json.str (String.singleton c)))
  | _ => none

/-- `LibraryManager.load_library`: a missing file yields an empty catalog
silently; a file whose content is not valid JSON yields an empty catalog
with the printed warning (`json.JSONDecodeError` is caught); a parsed JSON
value is iterated and each element passed to `Book(**book)`, any failure
there being an uncaught exception. -/
def load_library (fc : FileContent) : LoadResult :=
  match fc with
  | .missing => .ok [] false
  | .invalidSyntax => .ok [] true
  | .json j =>
    match jsonIter j with
    | none => .crash
    | some xs =>
      match booksFromJson xs with
      | some books => .ok books false
      | none => .crash

/-- `book.__dict__` serialized: the seven fields with their declared-order
keys, as written by `json.dump`. -/
def bookToJson (b : Book) : Json :=
  .obj [("title", .str b.title), ("author", .str b.author),
    ("isbn", .str b.isbn), ("genre", .str b.genre),
    ("year_published", .num b.year_published),
    ("date_added", .str b.date_added), ("status", .str b.status)]

/-- `LibraryManager.save_library`: the JSON document written to the backing
file is the array of the serialized records, in catalog order. -/
def save_library (books : List Book) : Json :=
  .arr (books.map bookToJson)

example : load_library (.json (save_library [gatsby, orwell]))
    = .ok [gatsby, orwell] false := by decide
example : load_library (.json (.arr [.num 1])) = .crash := by decide
example : load_library .missing = .ok [] false := by decide

/-! Helper lemmas shared by the claim theorems. -/

/-- The empty character list occurs in every list. -/
lemma charListIn_nil (hay : List Char) : charListIn [] hay = true := by
  cases hay <;> simp [charListIn, List.isPrefixOf]

/-- The empty query matches every record. -/
lemma matchesLowered_empty (b : Book) : matchesLowered (strLower "") b = true := by
  simp [matchesLowered, strLower, strIn, charListIn_nil]

/-- A catalog containing a record with a given isbn splits around the first
such record. -/
lemma exists_first_isbn {books : List Book} {isbn : String}
    (h : ∃ b ∈ books, b.isbn = isbn) :
    ∃ pre b post, books = pre ++ b :: post ∧
      (∀ x ∈ pre, x.isbn ≠ isbn) ∧ b.isbn = isbn := by
  induction books with
  | nil => simp at h
  | cons hd tl ih =>
    by_cases hhd : hd.isbn = isbn
    · exact ⟨[], hd, tl, by simp, by simp, hhd⟩
    · obtain ⟨b, hb, hbisbn⟩ := h
      rcases List.mem_cons.mp hb with rfl | hbtl
      · exact absurd hbisbn hhd
      · obtain ⟨pre, b', post, heq, hpre, hb'⟩ := ih ⟨b, hbtl, hbisbn⟩
        exact ⟨hd :: pre, b', post, by simp [heq], by
          intro x hx
          rcases List.mem_cons.mp hx with rfl | hxpre
          · exact hhd
          · exact hpre x hxpre, hb'⟩

/-- `remove_book` on a catalog split at the first matching record removes
exactly that record, saves and reports no error. -/
lemma remove_book_decomp (pre : List Book) (b : Book) (post : List Book)
    (isbn : String) (hpre : ∀ x ∈ pre, x.isbn ≠ isbn) (hb : b.isbn = isbn) :
    remove_book (pre ++ b :: post) isbn = ⟨pre ++ post, true, false⟩ := by
  induction pre with
  | nil => simp [remove_book, hb]
  | cons hd tl ih =>
    have hhd : hd.isbn ≠ isbn := hpre hd (by simp)
    simp only [List.cons_append, remove_book, beq_iff_eq, if_neg hhd]
    simp [List.append_eq, ih (fun x hx => hpre x (List.mem_cons_of_mem hd hx))]

/-- `remove_book` with an absent isbn changes nothing, saves nothing and
reports the error. -/
lemma remove_book_absent (books : List Book) (isbn : String)
    (h : ∀ b ∈ books, b.isbn ≠ isbn) :
    remove_book books isbn = ⟨books, false, true⟩ := by
  induction books with
  | nil => simp [remove_book]
  | cons hd tl ih =>
    have hhd : hd.isbn ≠ isbn := h hd (by simp)
    simp only [remove_book, beq_iff_eq, if_neg hhd]
    rw [ih (fun x hx => h x (List.mem_cons_of_mem hd hx))]

/-- `update_book_status` on a catalog split at the first matching record
rewrites exactly that record's status, saves and reports no error. -/
lemma update_book_status_decomp (pre : List Book) (b : Book)
    (post : List Book) (isbn new_status : String)
    (hpre : ∀ x ∈ pre, x.isbn ≠ isbn) (hb : b.isbn = isbn) :
    update_book_status (pre ++ b :: post) isbn new_status =
      ⟨pre ++ { b with status := new_status } :: post, true, false⟩ := by
  induction pre with
  | nil => simp [update_book_status, hb]
  | cons hd tl ih =>
    have hhd : hd.isbn ≠ isbn := hpre hd (by simp)
    simp only [List.cons_append, update_book_status, beq_iff_eq, if_neg hhd]
    simp [List.append_eq, ih (fun x hx => hpre x (List.mem_cons_of_mem hd hx))]

/-- `update_book_status` with an absent isbn changes nothing, saves nothing
and reports the error. -/
lemma update_book_status_absent (books : List Book) (isbn new_status : String)
    (h : ∀ b ∈ books, b.isbn ≠ isbn) :
    update_book_status books isbn new_status = ⟨books, false, true⟩ := by
  induction books with
  | nil => simp [update_book_status]
  | cons hd tl ih =>
    have hhd : hd.isbn ≠ isbn := h hd (by simp)
    simp only [update_book_status, beq_iff_eq, if_neg hhd]
    rw [ih (fun x hx => h x (List.mem_cons_of_mem hd hx))]

/-- The catalog after `remove_book` is a sublist of the original. -/
lemma remove_book_sublist (books : List Book) (isbn : String) :
    (remove_book books isbn).books.Sublist books := by
  induction books with
  | nil => simp [remove_book]
  | cons hd tl ih =>
    by_cases hhd : hd.isbn = isbn
    · simp only [remove_book, beq_iff_eq, if_pos hhd]
      exact List.sublist_cons_self hd tl
    · simp only [remove_book, beq_iff_eq, if_neg hhd]
      exact ih.cons₂ hd

/-- `update_book_status` never changes the sequence of isbns. -/
lemma update_book_status_map_isbn (books : List Book)
    (isbn new_status : String) :
    (update_book_status books isbn new_status).books.map Book.isbn =
      books.map Book.isbn := by
  induction books with
  | nil => simp [update_book_status]
  | cons hd tl ih =>
    by_cases hhd : hd.isbn = isbn
    · simp [update_book_status, hhd]
    · simp [update_book_status, hhd, ih]

/-- Deserializing one serialized record recovers it. -/
lemma bookFromJson_bookToJson (b : Book) :
    bookFromJson (bookToJson b) = some b := by
  simp [bookFromJson, bookToJson, getField, bookKeys]

/-- Deserializing a serialized catalog recovers it. -/
lemma booksFromJson_map (books : List Book) :
    booksFromJson (books.map bookToJson) = some books := by
  induction books with
  | nil => simp [booksFromJson]
  | cons hd tl ih => simp [booksFromJson, bookFromJson_bookToJson, ih]

/-! The claims. -/

/-- C1: adding a book whose isbn already occurs in the catalog reports an
error, leaves the in-memory catalog exactly as it was, and performs no
save. -/
theorem c1_add_duplicate_rejected (books : List Book)
    (title author isbn genre : String) (year : Int) (status today : String)
    (h : ∃ b ∈ books, b.isbn = isbn) :
    add_book books title author isbn genre year status today =
      ⟨books, false, true⟩ := by
  obtain ⟨b, hb, hbisbn⟩ := h
  have hany : books.any (fun book => book.isbn == isbn) = true :=
    List.any_eq_true.mpr ⟨b, hb, by simp [hbisbn]⟩
  simp [add_book, hany]

/-- C1, witness: re-adding the sample record's isbn to a one-record catalog
is rejected without mutation or save. -/
theorem c1_add_duplicate_rejected_witness :
    (∃ b ∈ [gatsby], b.isbn = "9780743273565") ∧
      add_book [gatsby] "Copy" "Somebody" "9780743273565" "Drama" 2000
          "read" "2026-10-12" = ⟨[gatsby], false, true⟩ :=
  ⟨⟨gatsby, by decide, by decide⟩,
    c1_add_duplicate_rejected [gatsby] "Copy" "Somebody" "9780743273565"
      "Drama" 2000 "read" "2026-10-12" ⟨gatsby, by decide, by decide⟩⟩

/-- C2: a catalog without duplicate isbns keeps that property after any
single `add_book`, `remove_book` or `update_book_status`. -/
theorem c2_nodup_isbn_preserved (books : List Book)
    (title author isbn genre : String) (year : Int)
    (status today isbnR isbnU new_status : String) (h : nodupIsbn books) :
    nodupIsbn (add_book books title author isbn genre year status today).books ∧
      nodupIsbn (remove_book books isbnR).books ∧
      nodupIsbn (update_book_status books isbnU new_status).books := by
  refine ⟨?_, ?_, ?_⟩
  · by_cases hdup : books.any (fun book => book.isbn == isbn) = true
    · simpa [add_book, hdup] using h
    · have hfresh : isbn ∉ books.map Book.isbn := by
        intro hmem
        obtain ⟨b, hb, hbisbn⟩ := List.mem_map.mp hmem
        exact hdup (List.any_eq_true.mpr ⟨b, hb, by simp [hbisbn]⟩)
      have hadd : (add_book books title author isbn genre year status
          today).books =
            books ++ [⟨title, author, isbn, genre, year, today, status⟩] := by
        simp [add_book, hdup]
      rw [nodupIsbn, hadd]
      simp only [List.map_append, List.map_cons, List.map_nil]
      rw [List.nodup_append]
      exact ⟨h, List.nodup_singleton _, by simpa using hfresh⟩
  · exact h.sublist ((remove_book_sublist books isbnR).map Book.isbn)
  · rw [nodupIsbn, update_book_status_map_isbn]
    exact h

/-- C2, witness: the invariant holds of the two-record sample catalog and is
preserved by one add (fresh isbn), one remove and one status update. -/
theorem c2_nodup_isbn_preserved_witness :
    nodupIsbn [gatsby, orwell] ∧
      (nodupIsbn (add_book [gatsby, orwell] "Dune" "Frank Herbert" "222"
          "Sci-Fi" 1965 "to_read" "2026-10-12").books ∧
        nodupIsbn (remove_book [gatsby, orwell] "111").books ∧
        nodupIsbn (update_book_status [gatsby, orwell] "111" "read").books) :=
  ⟨by unfold nodupIsbn; decide,
    c2_nodup_isbn_preserved [gatsby, orwell] "Dune" "Frank Herbert" "222"
      "Sci-Fi" 1965 "to_read" "2026-10-12" "111" "111" "read"
      (by unfold nodupIsbn; decide)⟩

/-- C3: `search_books` returns exactly the filter of the catalog by the
spec's match predicate (lower-cased query a substring of a lower-cased
title/author/isbn/genre field), hence an in-order subsequence of the
catalog; the empty query returns every record; and the operation leaves the
catalog untouched with no save. -/
theorem c3_search_books_spec (books : List Book) (query : String) :
    search_books books query = books.filter (spec_matches query) ∧
      (search_books books query).Sublist books ∧
      (query = "" → search_books books query = books) ∧
      search_op books query = (⟨books, false, false⟩, search_books books query) := by
  refine ⟨rfl, List.filter_sublist books, ?_, rfl⟩
  rintro rfl
  exact List.filter_eq_self.mpr fun b _ => matchesLowered_empty b

/-- C3, witness: a lower-case query finds the capitalized sample title, and
the empty query returns the whole catalog, via the theorem's empty-query
clause. -/
theorem c3_search_books_spec_witness :
    search_books [gatsby, orwell] "gatsby" = [gatsby] ∧
      search_books [gatsby, orwell] "" = [gatsby, orwell] :=
  ⟨by decide, (c3_search_books_spec [gatsby, orwell] "").2.2.1 rfl⟩

/-- C4: removing a present isbn deletes exactly the first matching record
(size drops by one, all other records kept in order) with a save; removing
an absent isbn reports not-found and changes nothing with no save. -/
theorem c4_remove_book_spec (books : List Book) (isbn : String) :
    ((∃ b ∈ books, b.isbn = isbn) →
        ∃ pre b post, books = pre ++ b :: post ∧
          (∀ x ∈ pre, x.isbn ≠ isbn) ∧ b.isbn = isbn ∧
          remove_book books isbn = ⟨pre ++ post, true, false⟩ ∧
          (pre ++ post).length + 1 = books.length) ∧
      ((∀ b ∈ books, b.isbn ≠ isbn) →
        remove_book books isbn = ⟨books, false, true⟩) := by
  constructor
  · intro h
    obtain ⟨pre, b, post, heq, hpre, hb⟩ := exists_first_isbn h
    subst heq
    exact ⟨pre, b, post, rfl, hpre, hb,
      remove_book_decomp pre b post isbn hpre hb, by simp; omega⟩
  · exact remove_book_absent books isbn

/-- C4, witness: removing "111" from the two-record sample catalog deletes
the second record only; removing the absent "999" changes nothing. -/
theorem c4_remove_book_spec_witness :
    (∃ pre b post, ([gatsby, orwell] : List Book) = pre ++ b :: post ∧
        (∀ x ∈ pre, x.isbn ≠ "111") ∧ b.isbn = "111" ∧
        remove_book [gatsby, orwell] "111" = ⟨pre ++ post, true, false⟩ ∧
        (pre ++ post).length + 1 = ([gatsby, orwell] : List Book).length) ∧
      remove_book [gatsby, orwell] "999" = ⟨[gatsby, orwell], false, true⟩ :=
  ⟨(c4_remove_book_spec [gatsby, orwell] "111").1 ⟨orwell, by decide, by decide⟩,
    (c4_remove_book_spec [gatsby, orwell] "999").2 (by decide)⟩

/-- C5: updating the status of a present isbn rewrites the status field of
the first record carrying it — its six other fields, and every other record
of the catalog in its position, are untouched — and saves; the new status
text is arbitrary (no validation); an absent isbn reports not-found and
changes nothing with no save. -/
theorem c5_update_book_status_spec (books : List Book)
    (isbn new_status : String) :
    ((∃ b ∈ books, b.isbn = isbn) →
        ∃ pre b post, books = pre ++ b :: post ∧
          (∀ x ∈ pre, x.isbn ≠ isbn) ∧ b.isbn = isbn ∧
          update_book_status books isbn new_status =
            ⟨pre ++ { b with status := new_status } :: post, true, false⟩) ∧
      ((∀ b ∈ books, b.isbn ≠ isbn) →
        update_book_status books isbn new_status = ⟨books, false, true⟩) := by
  constructor
  · intro h
    obtain ⟨pre, b, post, heq, hpre, hb⟩ := exists_first_isbn h
    subst heq
    exact ⟨pre, b, post, rfl, hpre, hb,
      update_book_status_decomp pre b post isbn new_status hpre hb⟩
  · exact update_book_status_absent books isbn new_status

/-- C5, witness: updating "111" to the unvalidated text "on loan" changes
only that record's status; updating the absent "999" changes nothing. -/
theorem c5_update_book_status_spec_witness :
    (∃ pre b post, ([gatsby, orwell] : List Book) = pre ++ b :: post ∧
        (∀ x ∈ pre, x.isbn ≠ "111") ∧ b.isbn = "111" ∧
        update_book_status [gatsby, orwell] "111" "on loan" =
          ⟨pre ++ { b with status := "on loan" } :: post, true, false⟩) ∧
      update_book_status [gatsby, orwell] "999" "read" =
        ⟨[gatsby, orwell], false, true⟩ :=
  ⟨(c5_update_book_status_spec [gatsby, orwell] "111" "on loan").1
      ⟨orwell, by decide, by decide⟩,
    (c5_update_book_status_spec [gatsby, orwell] "999" "read").2 (by decide)⟩

/-- C6: serializing any catalog with `save_library` and deserializing the
resulting document with `load_library` reproduces the same records in the
same order, every field equal (and without warning or crash). -/
theorem c6_save_load_round_trip (books : List Book) :
    load_library (.json (save_library books)) = .ok books false := by
  simp [load_library, save_library, jsonIter, booksFromJson_map]

/-- C7, counterexample: the file content `[1]` is valid JSON, so
`json.JSONDecodeError` is not raised, and `Book(**1)` then raises an
uncaught `TypeError`: the process aborts instead of reporting and starting
with an empty catalog, refuting "load never crashes on invalid file
content". -/
theorem c7_load_crash_counterexample :
    load_library (.json (.arr [.num 1])) = .crash ∧
      LoadResult.crash ≠ LoadResult.ok [] true ∧
      LoadResult.crash ≠ LoadResult.ok [] false := by decide

/-- C7, amended: a missing backing file yields an empty catalog silently,
and a file that is not syntactically valid JSON yields an empty catalog
with a printed warning (only `json.JSONDecodeError` is caught); but a file
whose content is valid JSON that is not an array of well-formed book
objects — such as `[1]` — raises an uncaught exception and aborts the
process. -/
theorem c7_load_error_recovery :
    load_library .missing = .ok [] false ∧
      load_library .invalidSyntax = .ok [] true ∧
      load_library (.json (.arr [.num 1])) = .crash := by decide

/-- C8: adding a fresh isbn appends exactly one record at the end of the
catalog — all existing records unchanged, in order — whose fields are the
submitted arguments with `date_added` the current date (the `today`
argument of the embedding), and saves. -/
theorem c8_add_fresh_appends (books : List Book)
    (title author isbn genre : String) (year : Int) (status today : String)
    (h : ∀ b ∈ books, b.isbn ≠ isbn) :
    add_book books title author isbn genre year status today =
      ⟨books ++ [⟨title, author, isbn, genre, year, today, status⟩],
        true, false⟩ := by
  have hany : books.any (fun book => book.isbn == isbn) = false := by
    rw [List.any_eq_false]
    intro b hb
    simpa using h b hb
  simp [add_book, hany]

/-- C8, witness: adding the second sample record's data to a one-record
catalog appends exactly it. -/
theorem c8_add_fresh_appends_witness :
    (∀ b ∈ [gatsby], b.isbn ≠ "111") ∧
      add_book [gatsby] "1984" "George Orwell" "111" "Fiction" 1949
          "to_read" "2026-10-12" = ⟨[gatsby, orwell], true, false⟩ :=
  ⟨by decide,
    c8_add_fresh_appends [gatsby] "1984" "George Orwell" "111" "Fiction"
      1949 "to_read" "2026-10-12" (by decide)⟩

/-- C9: `update_book_status` is idempotent on the in-memory catalog — for
any catalog, isbn and status text, applying it twice leaves the catalog
exactly as applying it once (whether or not the isbn is present). -/
theorem c9_update_book_status_idempotent (books : List Book)
    (isbn new_status : String) :
    (update_book_status (update_book_status books isbn new_status).books
        isbn new_status).books =
      (update_book_status books isbn new_status).books := by
  induction books with
  | nil => rfl
  | cons hd tl ih =>
    by_cases hhd : hd.isbn = isbn
    · simp [update_book_status, hhd]
    · simp [update_book_status, hhd, ih]

/-- C10: on a catalog with duplicate isbns (possible since `load_library`
checks no uniqueness), `update_book_status` rewrites only the first record
in catalog order carrying the isbn: the suffix after it — in particular
every later duplicate, with its previous status — is returned verbatim. -/
theorem c10_update_first_duplicate_only (pre : List Book) (b : Book)
    (post : List Book) (isbn new_status : String)
    (hpre : ∀ x ∈ pre, x.isbn ≠ isbn) (hb : b.isbn = isbn) :
    update_book_status (pre ++ b :: post) isbn new_status =
      ⟨pre ++ { b with status := new_status } :: post, true, false⟩ :=
  update_book_status_decomp pre b post isbn new_status hpre hb

/-- C10, witness: with two records sharing isbn "111", updating to "read"
rewrites the first and returns the later duplicate with its old status
"reading". -/
theorem c10_update_first_duplicate_only_witness :
    update_book_status
        [orwell, ⟨"1984", "George Orwell", "111", "Fiction", 1949,
          "2026-10-13", "reading"⟩] "111" "read" =
      ⟨[{ orwell with status := "read" },
        ⟨"1984", "George Orwell", "111", "Fiction", 1949, "2026-10-13",
          "reading"⟩], true, false⟩ :=
  c10_update_first_duplicate_only []
    orwell
    [⟨"1984", "George Orwell", "111", "Fiction", 1949, "2026-10-13",
      "reading"⟩]
    "111" "read" (by decide) (by decide)
